import Mathlib

/-!
A shallow embedding of the Travel-planner backend (`src/app.py`) and proofs
about its POI store, validation and gateway logic.

Modelling conventions:
* Python strings are modelled as Lean `String` / `List Char`;
  `str.strip`, `str.lower`, `str.split` are given explicit ASCII models below.
* Python floats appearing in the persisted POI file are modelled by `Dec`,
  a decimal mantissa/scale pair (every float literal the app serialises is a
  finite decimal); floats in gateway arithmetic are modelled by `ℚ`.
* The persisted file is `FileState := Option (List Char)` — `none` when the
  file does not exist, otherwise its character contents.  `json.dump` /
  `json.load`, specialised to the POI file schema, are modelled by an
  executable printer (`dump_pois`) and parser (`parse_pois`); indentation
  whitespace produced by `indent=2` is elided, since it does not affect the
  parsed value.
* Unhandled Python exceptions (FileNotFoundError, json decode errors,
  tuple-unpacking ValueError) surface as distinct `AppErr` constructors.
* The outbound HTTP call is modelled by passing the provider as a function
  from the request body to a response, and each endpoint returns the list of
  requests it actually issued, so "no network call was made" is expressible.
* `uuid.uuid4().hex` is modelled by an explicit `newId` argument.
-/

namespace TravelPlanner

/-- Model of the ASCII part of Python `str.isspace` / default `str.strip`
characters: space, tab, newline, carriage return, vertical tab, form feed. -/
def isSpaceC (c : Char) : Bool :=
  c = ' ' || c = Char.ofNat 9 || c = Char.ofNat 10 || c = Char.ofNat 13 ||
  c = Char.ofNat 11 || c = Char.ofNat 12

/-- Model of Python `str.strip()` on a character list: drop whitespace from
both ends. -/
def pyStrip (l : List Char) : List Char :=
  ((l.dropWhile isSpaceC).reverse.dropWhile isSpaceC).reverse

/-- ASCII model of Python `str.lower` on one character. -/
def lowerC (c : Char) : Char :=
  if 65 ≤ c.toNat && c.toNat ≤ 90 then Char.ofNat (c.toNat + 32) else c

/-- Model of Python `str.lower()` on a character list. -/
def pyLower (l : List Char) : List Char := l.map lowerC

/-- The name normalisation used by `create_poi`'s uniqueness check:
`p["name"].strip().lower()`. -/
def normName (s : String) : List Char := pyLower (pyStrip s.data)

/-- Model of Python `str.split(sep)` for a single-character separator.
`"".split(",") = [""]`, and separators produce empty fields, as in Python. -/
def splitC (sep : Char) : List Char → List (List Char)
  | [] => [[]]
  | c :: cs =>
    let r := splitC sep cs
    if c = sep then [] :: r
    else
      match r with
      | g :: gs => (c :: g) :: gs
      | [] => [[c]]

/-- A finite decimal `m / 10 ^ e`, modelling a Python float as it is written
by `json.dump` (mantissa and number of digits after the decimal point). -/
structure Dec where
  m : Int
  e : Nat
  deriving Repr, DecidableEq

/-- Rational value of a `Dec`. -/
def Dec.toQ (d : Dec) : ℚ := (d.m : ℚ) / (10 : ℚ) ^ d.e

/-- A persisted POI record, the dict `create_poi` writes:
keys `id`, `name`, `lat`, `lon`, `tags` in that order. -/
structure Poi where
  id : String
  name : String
  lat : Dec
  lon : Dec
  tags : List String
  deriving Repr, DecidableEq

/-- The request body model `PoiIn` (already parsed JSON fields);
`tags` defaults to `[]` at the pydantic layer, so here it is always present. -/
structure PoiIn where
  name : String
  lat : Dec
  lon : Dec
  tags : List String
  deriving Repr, DecidableEq

/-- The pydantic validation of `PoiIn`: `name` has `min_length=1` (checked on
the raw, untrimmed string), `-90 <= lat <= 90`, `-180 <= lon <= 180`.
The float comparisons are expressed on the decimal representation by
cross-multiplying with `10 ^ e`, which is equivalent to the `ℚ` comparison. -/
def validatePoiIn (p : PoiIn) : Bool :=
  1 ≤ p.name.data.length &&
  (-90 * 10 ^ p.lat.e ≤ p.lat.m && p.lat.m ≤ 90 * 10 ^ p.lat.e) &&
  (-180 * 10 ^ p.lon.e ≤ p.lon.m && p.lon.m ≤ 180 * 10 ^ p.lon.e)

/-- Errors surfaced to the HTTP caller.  `http` is a raised `HTTPException`;
the other constructors are unhandled Python exceptions (all turning into a
500 response): a missing file on direct `open`, a `json.load` failure, and
the tuple-unpacking `ValueError` in `geocode`. -/
inductive AppErr where
  | http (status : Nat) (detail : String)
  | fileMissing
  | badJson
  | unpackFail
  deriving Repr, DecidableEq

/-- The POI file: `none` when `pois.json` does not exist, otherwise its
textual contents. -/
def FileState : Type := Option (List Char)

/- ===== json.dump, specialised to the POI collection schema ===== -/

/-- Double-quote character. -/
def qc : Char := Char.ofNat 34
/-- Backslash character. -/
def bsc : Char := Char.ofNat 92
/-- Opening brace character. -/
def lcb : Char := Char.ofNat 123
/-- Closing brace character. -/
def rcb : Char := Char.ofNat 125

/-- Lower-case hex digit, as Python's `json` module emits in `\uXXXX`. -/
def hexDig (n : Nat) : Char :=
  if n < 10 then Char.ofNat (48 + n) else Char.ofNat (87 + n)

/-- How `json.dump(..., ensure_ascii=False)` writes one character inside a
string literal: short escapes for quote, backslash and the usual control
characters, `\u00XX` for the remaining control characters, everything else
verbatim. -/
def escChar (c : Char) : List Char :=
  if c = qc then [bsc, qc]
  else if c = bsc then [bsc, bsc]
  else if c = Char.ofNat 10 then [bsc, 'n']
  else if c = Char.ofNat 9 then [bsc, 't']
  else if c = Char.ofNat 13 then [bsc, 'r']
  else if c = Char.ofNat 8 then [bsc, 'b']
  else if c = Char.ofNat 12 then [bsc, 'f']
  else if c.toNat < 32 then [bsc, 'u', '0', '0', hexDig (c.toNat / 16), hexDig (c.toNat % 16)]
  else [c]

/-- JSON string literal for `s`. -/
def dumpStr (s : String) : List Char :=
  qc :: (s.data.map escChar).flatten ++ [qc]

/-- Little-endian decimal digits of `n` (fuel-based so that it reduces in the
kernel); `natDigits 0 = []`. -/
def natDigitsAux : Nat → Nat → List Nat
  | 0, _ => []
  | fuel + 1, n => if n = 0 then [] else n % 10 :: natDigitsAux fuel (n / 10)

/-- Little-endian decimal digits of `n`. -/
def natDigits (n : Nat) : List Nat := natDigitsAux (n + 1) n

/-- Digits of `n` padded with high zeros to length at least `e + 1`
(little-endian), so that a float with `e` fractional digits always has at
least one digit before the decimal point. -/
def padDigits (n e : Nat) : List Nat :=
  let ds := natDigits n
  ds ++ List.replicate (e + 1 - ds.length) 0

/-- Decimal digit character. -/
def digitChar (d : Nat) : Char := Char.ofNat (48 + d)

/-- Big-endian rendering of little-endian digits. -/
def renderDigits (ds : List Nat) : List Char := (ds.map digitChar).reverse

/-- How `json.dump` writes the number `v`: optional sign, integer digits,
and — when `v.e > 0` — a decimal point followed by exactly `v.e` fractional
digits (as Python's `repr` of the float). -/
def dumpDec (v : Dec) : List Char :=
  let sign : List Char := if v.m < 0 then ['-'] else []
  let ds := padDigits v.m.natAbs v.e
  if v.e = 0 then
    sign ++ renderDigits ds
  else
    sign ++ renderDigits (ds.drop v.e) ++ '.' :: renderDigits (ds.take v.e)

/-- Comma-separated dump of a list of items. -/
def sepDump (f : α → List Char) : List α → List Char
  | [] => []
  | [a] => f a
  | a :: as => f a ++ ',' :: sepDump f as

/-- JSON array literal. -/
def dumpArr (f : α → List Char) (l : List α) : List Char :=
  '[' :: sepDump f l ++ [']']

/-- JSON object literal for one POI record, keys in the insertion order of
the dict built by `create_poi`. -/
def dumpPoi (p : Poi) : List Char :=
  lcb :: (dumpStr "id" ++ ':' :: dumpStr p.id ++
    ',' :: dumpStr "name" ++ ':' :: dumpStr p.name ++
    ',' :: dumpStr "lat" ++ ':' :: dumpDec p.lat ++
    ',' :: dumpStr "lon" ++ ':' :: dumpDec p.lon ++
    ',' :: dumpStr "tags" ++ ':' :: dumpArr dumpStr p.tags) ++ [rcb]

/-- The file contents `json.dump(pois, f, ensure_ascii=False, indent=2)`
produces, with the inter-token indentation whitespace elided. -/
def dumpPois (l : List Poi) : List Char := dumpArr dumpPoi l

/-- `save_pois(pois)`: truncate and rewrite the whole file. -/
def save_pois (pois : List Poi) : FileState := some (dumpPois pois)

/- ===== json.load, specialised to the POI collection schema ===== -/

/-- Hex digit value. -/
def hexVal (c : Char) : Option Nat :=
  if 48 ≤ c.toNat && c.toNat ≤ 57 then some (c.toNat - 48)
  else if 97 ≤ c.toNat && c.toNat ≤ 102 then some (c.toNat - 87)
  else if 65 ≤ c.toNat && c.toNat ≤ 70 then some (c.toNat - 55)
  else none

/-- Inverse of the short escapes. -/
def unescShort (c : Char) : Option Char :=
  if c = qc then some qc
  else if c = bsc then some bsc
  else if c = '/' then some '/'
  else if c = 'n' then some (Char.ofNat 10)
  else if c = 't' then some (Char.ofNat 9)
  else if c = 'r' then some (Char.ofNat 13)
  else if c = 'b' then some (Char.ofNat 8)
  else if c = 'f' then some (Char.ofNat 12)
  else none

/-- Combined value of four hex digits, as in a `\uXXXX` escape. -/
def hex4 (a b c d : Char) : Option Nat :=
  (hexVal a).bind fun x =>
  (hexVal b).bind fun y =>
  (hexVal c).bind fun z =>
  (hexVal d).map fun w => ((x * 16 + y) * 16 + z) * 16 + w

/-- Parse the body of a JSON string literal up to and including the closing
quote; returns the unescaped characters and the remaining input. -/
def parseStrBody : List Char → Option (List Char × List Char)
  | [] => none
  | c :: cs =>
    if c = qc then some ([], cs)
    else if c = bsc then
      match cs with
      | [] => none
      | e :: cs2 =>
        if e = 'u' then
          match cs2 with
          | h1 :: h2 :: h3 :: h4 :: cs3 =>
            (hex4 h1 h2 h3 h4).bind fun n =>
            (parseStrBody cs3).bind fun p => some (Char.ofNat n :: p.1, p.2)
          | _ => none
        else
          (unescShort e).bind fun d =>
          (parseStrBody cs2).bind fun p => some (d :: p.1, p.2)
    else
      (parseStrBody cs).bind fun p => some (c :: p.1, p.2)

/-- Parse a JSON string literal. -/
def parseStr (l : List Char) : Option (List Char × List Char) :=
  match l with
  | c :: cs => if c = qc then parseStrBody cs else none
  | [] => none

/-- Decimal digit test. -/
def isDigitC (c : Char) : Bool := 48 ≤ c.toNat && c.toNat ≤ 57

/-- Value of a decimal digit character. -/
def charVal (c : Char) : Nat := c.toNat - 48

/-- Value of big-endian digit characters. -/
def charsVal (l : List Char) : Nat := l.foldl (fun acc c => acc * 10 + charVal c) 0

/-- Split off a leading minus sign. -/
def parseSign : List Char → Bool × List Char
  | [] => (false, [])
  | c :: cs => if c = '-' then (true, cs) else (false, c :: cs)

/-- Apply the sign to a parsed magnitude. -/
def decSigned (sign : Bool) (a : Nat) : Int :=
  if sign then -(a : Int) else (a : Int)

/-- Parse the fractional part after the decimal point, given the sign and
the integer digits already consumed. -/
def parseFrac (sign : Bool) (ds l3 : List Char) : Option (Dec × List Char) :=
  let r := l3.span isDigitC
  if r.1.isEmpty then none
  else
    some (⟨decSigned sign (charsVal ds * 10 ^ r.1.length + charsVal r.1), r.1.length⟩, r.2)

/-- Continue a number after the integer digits: either a decimal point with
fractional digits follows, or the number is an integer. -/
def parseDecAfter (sign : Bool) (ds l2 : List Char) : Option (Dec × List Char) :=
  if ds.isEmpty then none
  else
    match l2 with
    | c2 :: l3 =>
      if c2 = '.' then parseFrac sign ds l3
      else some (⟨decSigned sign (charsVal ds), 0⟩, c2 :: l3)
    | [] => some (⟨decSigned sign (charsVal ds), 0⟩, [])

/-- Parse a JSON number (integer or decimal fraction, no exponent — the only
shapes the app ever writes). -/
def parseDec (l : List Char) : Option (Dec × List Char) :=
  let p := parseSign l
  let q := p.2.span isDigitC
  parseDecAfter p.1 q.1 q.2

/-- Expect one specific character. -/
def expectC (c : Char) (l : List Char) : Option (List Char) :=
  match l with
  | d :: rest => if d = c then some rest else none
  | [] => none

/-- Parse the items of a non-empty JSON array after the opening bracket:
items separated by commas, terminated by the closing bracket. -/
def sepParse (pf : List Char → Option (α × List Char)) :
    Nat → List Char → Option (List α × List Char)
  | 0, _ => none
  | fuel + 1, l =>
    match pf l with
    | none => none
    | some (a, rest) =>
      match rest with
      | c :: rest2 =>
        if c = ',' then
          match sepParse pf fuel rest2 with
          | some (as, r) => some (a :: as, r)
          | none => none
        else if c = ']' then some ([a], rest2)
        else none
      | [] => none

/-- Parse a JSON array. -/
def parseArr (pf : List Char → Option (α × List Char)) (l : List Char) :
    Option (List α × List Char) :=
  match l with
  | c :: cs =>
    if c = '[' then
      match cs with
      | d :: cs2 => if d = ']' then some ([], cs2) else sepParse pf cs.length cs
      | [] => none
    else none
  | [] => none

/-- Parse a JSON string literal into a `String`. -/
def parseStrS (l : List Char) : Option (String × List Char) :=
  match parseStr l with
  | some (s, rest) => some (String.mk s, rest)
  | none => none

/-- Parse one `"key":value` member whose key must be the given literal. -/
def parseField (key : String) (pv : List Char → Option (α × List Char))
    (l : List Char) : Option (α × List Char) :=
  match parseStr l with
  | some (ks, l1) =>
    if ks = key.data then
      match expectC ':' l1 with
      | some l2 => pv l2
      | none => none
    else none
  | none => none

/-- Parse one POI object, in exactly the schema the app writes. -/
def parsePoi (l0 : List Char) : Option (Poi × List Char) :=
  (expectC lcb l0).bind fun l1 =>
  (parseField "id" parseStrS l1).bind fun p1 =>
  (expectC ',' p1.2).bind fun l2 =>
  (parseField "name" parseStrS l2).bind fun p2 =>
  (expectC ',' p2.2).bind fun l3 =>
  (parseField "lat" parseDec l3).bind fun p3 =>
  (expectC ',' p3.2).bind fun l4 =>
  (parseField "lon" parseDec l4).bind fun p4 =>
  (expectC ',' p4.2).bind fun l5 =>
  (parseField "tags" (parseArr parseStrS) l5).bind fun p5 =>
  (expectC rcb p5.2).bind fun l6 =>
  some (⟨p1.1, p2.1, p3.1, p4.1, p5.1⟩, l6)

/-- Parse a whole POI file: a JSON array of POI objects, with nothing after
it (as `json.load` requires). -/
def parse_pois (s : List Char) : Option (List Poi) :=
  match parseArr parsePoi s with
  | some (ps, []) => some ps
  | _ => none

/-- `load_pois()`: returns `[]` when the file does not exist, otherwise
parses it; a parse failure is an unhandled `json` exception. -/
def load_pois (st : FileState) : Except AppErr (List Poi) :=
  match st with
  | none => .ok []
  | some s =>
    match parse_pois s with
    | some l => .ok l
    | none => .error .badJson

/-- `list_pois` (`GET /pois`): opens the file directly — without the
existence check `load_pois` performs — and parses it. -/
def list_pois (st : FileState) : Except AppErr (List Poi) :=
  match st with
  | none => .error .fileMissing
  | some s =>
    match parse_pois s with
    | some l => .ok l
    | none => .error .badJson

/-- `create_poi` (`POST /pois`): loads the collection, rejects a duplicate
trimmed-lowercased name with HTTP 409, otherwise appends the new record
(fresh id, trimmed name) and rewrites the file.  Returns the file state
after the call together with the outcome. -/
def create_poi (newId : String) (poi : PoiIn) (st : FileState) :
    FileState × Except AppErr Poi :=
  match load_pois st with
  | .error e => (st, .error e)
  | .ok pois =>
    let names := pois.map fun p => normName p.name
    if normName poi.name ∈ names then
      (st, .error (.http 409 "POI с таким названием уже существует"))
    else
      let item : Poi :=
        ⟨newId, String.mk (pyStrip poi.name.data), poi.lat, poi.lon, poi.tags⟩
      (save_pois (pois ++ [item]), .ok item)

/-- `delete_poi` (`DELETE /pois/{poi_id}`): loads the collection, keeps the
records whose id differs, answers HTTP 404 when nothing was removed and
otherwise rewrites the file with the reduced collection. -/
def delete_poi (poiId : String) (st : FileState) :
    FileState × Except AppErr Unit :=
  match load_pois st with
  | .error e => (st, .error e)
  | .ok pois =>
    let newPois := pois.filter fun p => p.id ≠ poiId
    if newPois.length = pois.length then
      (st, .error (.http 404 "POI не найден"))
    else
      (save_pois newPois, .ok ())

/- ===== Gateways (geocode / route) ===== -/

/-- Python's `round` on a rational: round half to even (banker's rounding),
as used by `round(x)` and, scaled, by `round(x, 3)`. -/
def pyRound (x : ℚ) : ℤ :=
  let f := ⌊x⌋
  let r := x - f
  if r < 1 / 2 then f
  else if 1 / 2 < r then f + 1
  else if f % 2 = 0 then f else f + 1

/-- Python's `round(x, 3)`. -/
def pyRound3 (x : ℚ) : ℚ := (pyRound (x * 1000) : ℚ) / 1000

/-- The request body `route` posts to the directions endpoint (the
authorization headers are constants and are elided). -/
structure RouteReq where
  profile : String
  coordinates : List (List ℚ)
  instructions : Bool
  elevation : Bool
  radiuses : List ℚ
  preference : String
  deriving Repr, DecidableEq

/-- The pieces of a directions response the handler reads: HTTP status, body
text (used in error messages), and for each feature the optional
`properties["summary"]` entries (a missing `summary` dict is the same as one
with both entries missing, matching `.get("summary", {})`). -/
structure RouteFeature where
  summaryDistance : Option ℚ
  summaryDuration : Option ℚ
  deriving Repr, DecidableEq

/-- A directions-provider response. -/
structure RouteResp where
  status : Nat
  text : String
  features : List RouteFeature
  deriving Repr, DecidableEq

/-- The payload `route` returns on success: the provider response verbatim
(`geojson`), the derived summary, and the profile used. -/
structure RouteOut where
  geojson : RouteResp
  distance_km : ℚ
  duration_min : ℤ
  profile : String
  deriving Repr, DecidableEq

/-- Model of `float(x.strip()) for x in coord.split(",")` unpacked into a
pair: split on commas, strip and float-parse every component, and require
exactly two components.  The float parser itself is passed in as `pf`. -/
def parseCoordWith (pf : String → Option ℚ) (s : String) : Option (ℚ × ℚ) :=
  match (splitC ',' s.data).mapM (fun xs => pf (String.mk (pyStrip xs))) with
  | some [a, b] => some (a, b)
  | _ => none

/-- `route` (`GET /route`): parse both coordinate strings (any failure is
HTTP 400 before the provider is consulted), post the request, propagate a
non-200 status, reject an empty feature list with HTTP 502, and otherwise
flatten the first feature's summary.  Returns the list of provider requests
actually issued alongside the outcome. -/
def route (pf : String → Option ℚ) (from_coord to_coord : String)
    (profile : String) (provider : RouteReq → RouteResp) :
    List RouteReq × Except AppErr RouteOut :=
  match parseCoordWith pf from_coord, parseCoordWith pf to_coord with
  | some fp, some tp =>
    let req : RouteReq :=
      { profile := profile
        coordinates := [[fp.2, fp.1], [tp.2, tp.1]]
        instructions := false
        elevation := false
        radiuses := [50, 50]
        preference := "recommended" }
    let r := provider req
    if r.status ≠ 200 then
      ([req], .error (.http r.status ("Directions error: " ++ r.text)))
    else
      match r.features with
      | [] => ([req], .error (.http 502 "Пустой ответ маршрутизатора"))
      | f :: _ =>
        ([req],
          .ok { geojson := r
                distance_km := pyRound3 (f.summaryDistance.getD 0 / 1000)
                duration_min := pyRound (f.summaryDuration.getD 0 / 60)
                profile := profile })
  | _, _ => ([], .error (.http 400 "Неверный формат координат. Ожидал lat,lon."))

/-- The query parameters `geocode` sends to the search endpoint (the api-key
parameter and headers are constants and are elided). -/
structure GeoReq where
  text : String
  size : Nat
  deriving Repr, DecidableEq

/-- The pieces of one geocoding feature the handler reads:
`geometry.get("type")`, `geometry.get("coordinates")` (a JSON array whose
entries are numbers or null), `properties.get("label")` and
`properties.get("name")`. -/
structure GeoFeature where
  geomType : Option String
  coordinates : Option (List (Option ℚ))
  label : Option String
  name : Option String
  deriving Repr, DecidableEq

/-- A geocoding-provider response. -/
structure GeoResp where
  status : Nat
  text : String
  features : List GeoFeature
  deriving Repr, DecidableEq

/-- One entry of the geocode result list. -/
structure GeoHit where
  label : Option String
  lat : Option ℚ
  lon : Option ℚ
  deriving Repr, DecidableEq

/-- Python's `a or b` on optional strings: `None` and `""` are falsy. -/
def pyOrStr (a b : Option String) : Option String :=
  match a with
  | some s => if s = "" then b else some s
  | none => b

/-- Process one geocoding feature as the loop body does: non-point features
are skipped; for a point feature, `lon, lat = geom.get("coordinates",
[None, None])` unpacks the coordinate array — a `ValueError` (any length
other than two) aborts the request — and an entry is appended whose label is
`props.get("label") or props.get("name")`. -/
def geoStep (f : GeoFeature) : Except AppErr (Option GeoHit) :=
  if f.geomType = some "Point" then
    match f.coordinates.getD [none, none] with
    | [lon, lat] => .ok (some { label := pyOrStr f.label f.name, lat := lat, lon := lon })
    | _ => .error .unpackFail
  else .ok none

/-- The feature loop of `geocode`, in provider order. -/
def geoFold : List GeoFeature → Except AppErr (List GeoHit)
  | [] => .ok []
  | f :: fs =>
    match geoStep f with
    | .error e => .error e
    | .ok none => geoFold fs
    | .ok (some h) =>
      match geoFold fs with
      | .error e => .error e
      | .ok hs => .ok (h :: hs)

/-- `geocode` (`GET /geocode`): the framework rejects queries shorter than
two characters with HTTP 422 before the handler runs; otherwise the query is
sent with `size = 5`, a non-200 status is propagated, and the features are
filtered and flattened by `geoFold`.  Returns the list of provider requests
actually issued alongside the outcome. -/
def geocode (q : String) (provider : GeoReq → GeoResp) :
    List GeoReq × Except AppErr (List GeoHit) :=
  if q.length < 2 then
    ([], .error (.http 422 "query too short"))
  else
    let req : GeoReq := { text := q, size := 5 }
    let r := provider req
    if r.status ≠ 200 then
      ([req], .error (.http r.status ("Geocode error: " ++ r.text)))
    else
      match geoFold r.features with
      | .error e => ([req], .error e)
      | .ok out => ([req], .ok out)

/- ===== Round-trip lemmas for the serialization layer ===== -/

lemma takeWhile_append_of_forall {p : Char → Bool} :
    ∀ {xs rest : List Char}, (∀ c ∈ xs, p c = true) →
    (∀ c, rest.head? = some c → p c = false) →
    (xs ++ rest).takeWhile p = xs := by
  intro xs
  induction xs with
  | nil =>
    intro rest _ h2
    cases rest with
    | nil => rfl
    | cons r t => simp [List.takeWhile, h2 r rfl]
  | cons x xs ih =>
    intro rest h1 h2
    simp only [List.cons_append, List.takeWhile]
    rw [h1 x (by simp)]
    simp [ih (fun c hc => h1 c (by simp [hc])) h2]

lemma dropWhile_append_of_forall {p : Char → Bool} :
    ∀ {xs rest : List Char}, (∀ c ∈ xs, p c = true) →
    (∀ c, rest.head? = some c → p c = false) →
    (xs ++ rest).dropWhile p = rest := by
  intro xs
  induction xs with
  | nil =>
    intro rest _ h2
    cases rest with
    | nil => rfl
    | cons r t => simp [List.dropWhile, h2 r rfl]
  | cons x xs ih =>
    intro rest h1 h2
    simp only [List.cons_append, List.dropWhile]
    rw [h1 x (by simp)]
    simp [ih (fun c hc => h1 c (by simp [hc])) h2]

lemma span_append_of_forall {p : Char → Bool} {xs rest : List Char}
    (h1 : ∀ c ∈ xs, p c = true)
    (h2 : ∀ c, rest.head? = some c → p c = false) :
    (xs ++ rest).span p = (xs, rest) := by
  rw [List.span_eq_take_drop, takeWhile_append_of_forall h1 h2,
    dropWhile_append_of_forall h1 h2]

lemma natDigitsAux_lt : ∀ (fuel n : Nat), ∀ d ∈ natDigitsAux fuel n, d < 10 := by
  intro fuel
  induction fuel with
  | zero => intro n d hd; simp [natDigitsAux] at hd
  | succ fuel ih =>
    intro n d hd
    by_cases hn : n = 0
    · simp [natDigitsAux, hn] at hd
    · simp only [natDigitsAux, if_neg hn, List.mem_cons] at hd
      rcases hd with h | h
      · subst h; exact Nat.mod_lt _ (by omega)
      · exact ih _ _ h

lemma natDigits_lt (n : Nat) : ∀ d ∈ natDigits n, d < 10 :=
  natDigitsAux_lt (n + 1) n

lemma ofDigits_natDigitsAux : ∀ (fuel n : Nat), n ≤ fuel →
    Nat.ofDigits 10 (natDigitsAux fuel n) = n := by
  intro fuel
  induction fuel with
  | zero => intro n hn; interval_cases n; simp [natDigitsAux]
  | succ fuel ih =>
    intro n hn
    by_cases h0 : n = 0
    · simp [natDigitsAux, h0]
    · rw [natDigitsAux, if_neg h0, Nat.ofDigits_cons,
        ih (n / 10) (by omega)]
      omega

lemma ofDigits_natDigits (n : Nat) : Nat.ofDigits 10 (natDigits n) = n :=
  ofDigits_natDigitsAux (n + 1) n (by omega)

lemma ofDigits_replicate_zero : ∀ k : Nat, Nat.ofDigits 10 (List.replicate k 0) = 0 := by
  intro k
  induction k with
  | zero => simp [Nat.ofDigits]
  | succ k ih => simp [List.replicate, Nat.ofDigits_cons, ih]

lemma padDigits_lt (n e : Nat) : ∀ d ∈ padDigits n e, d < 10 := by
  intro d hd
  simp only [padDigits, List.mem_append] at hd
  rcases hd with h | h
  · exact natDigits_lt n d h
  · have := List.eq_of_mem_replicate h
    omega

lemma padDigits_length (n e : Nat) : e + 1 ≤ (padDigits n e).length := by
  simp only [padDigits, List.length_append, List.length_replicate]
  omega

lemma ofDigits_padDigits (n e : Nat) : Nat.ofDigits 10 (padDigits n e) = n := by
  simp only [padDigits, Nat.ofDigits_append, ofDigits_replicate_zero,
    ofDigits_natDigits]
  ring

lemma charVal_digitChar {d : Nat} (h : d < 10) : charVal (digitChar d) = d := by
  interval_cases d <;> decide

lemma isDigitC_digitChar {d : Nat} (h : d < 10) : isDigitC (digitChar d) = true := by
  interval_cases d <;> decide

lemma mem_renderDigits_isDigitC {ds : List Nat} (h : ∀ d ∈ ds, d < 10) :
    ∀ c ∈ renderDigits ds, isDigitC c = true := by
  intro c hc
  simp only [renderDigits, List.mem_reverse, List.mem_map] at hc
  obtain ⟨d, hd, rfl⟩ := hc
  exact isDigitC_digitChar (h d hd)

lemma isDigitC_ne_of (c : Char) (h : isDigitC c = true) : c ≠ '-' ∧ c ≠ '.' ∧ c ≠ ',' := by
  refine ⟨?_, ?_, ?_⟩ <;> rintro rfl <;> simp [isDigitC] at h

lemma charsVal_renderDigits {ds : List Nat} (h : ∀ d ∈ ds, d < 10) :
    charsVal (renderDigits ds) = Nat.ofDigits 10 ds := by
  induction ds with
  | nil => simp [charsVal, renderDigits, Nat.ofDigits]
  | cons d ds ih =>
    have ih2 : charsVal (renderDigits ds) = Nat.ofDigits 10 ds :=
      ih (fun x hx => h x (by simp [hx]))
    simp only [renderDigits, List.map_cons, List.reverse_cons] at *
    rw [charsVal, List.foldl_append] at *
    simp only [List.foldl_cons, List.foldl_nil]
    rw [ih2, Nat.ofDigits_cons, charVal_digitChar (h d (by simp))]
    ring

lemma renderDigits_length (ds : List Nat) : (renderDigits ds).length = ds.length := by
  simp [renderDigits]

lemma renderDigits_ne_nil {ds : List Nat} (h : ds ≠ []) : renderDigits ds ≠ [] := by
  simp [renderDigits, h]

/-- A valid continuation after a serialized number: whatever follows may not
extend the number (no digit, no decimal point). -/
def numStop (rest : List Char) : Prop :=
  ∀ c, rest.head? = some c → isDigitC c = false ∧ c ≠ '.'

lemma parseSign_neg (cs : List Char) : parseSign ('-' :: cs) = (true, cs) := by
  simp [parseSign]

lemma parseSign_of_digits {l rest : List Char} (hl : ∀ c ∈ l, isDigitC c = true)
    (hne : l ≠ []) : parseSign (l ++ rest) = (false, l ++ rest) := by
  cases l with
  | nil => exact absurd rfl hne
  | cons c cs =>
    have := (isDigitC_ne_of c (hl c (by simp))).1
    simp [parseSign, this]

lemma parseDecAfter_int (sign : Bool) (rd rest : List Char) (hne : rd ≠ [])
    (h : numStop rest) :
    parseDecAfter sign rd rest = some (⟨decSigned sign (charsVal rd), 0⟩, rest) := by
  cases rest with
  | nil => simp only [parseDecAfter, if_neg (by simp [hne] : ¬rd.isEmpty = true)]
  | cons r t =>
    simp only [parseDecAfter, if_neg (by simp [hne] : ¬rd.isEmpty = true)]
    rw [if_neg (h r rfl).2]

lemma parseDecAfter_frac (sign : Bool) (rd fs rest : List Char) (hne : rd ≠ [])
    (hfs_ne : fs ≠ []) (hfs : ∀ c ∈ fs, isDigitC c = true) (h : numStop rest) :
    parseDecAfter sign rd ('.' :: (fs ++ rest)) =
      some (⟨decSigned sign (charsVal rd * 10 ^ fs.length + charsVal fs),
        fs.length⟩, rest) := by
  simp only [parseDecAfter, if_neg (by simp [hne] : ¬rd.isEmpty = true), if_true]
  have hspan : (fs ++ rest).span isDigitC = (fs, rest) :=
    span_append_of_forall hfs (fun c hc => (h c hc).1)
  simp only [parseFrac, hspan]
  rw [if_neg (by simp [hfs_ne])]

theorem parseDec_dumpDec (v : Dec) (rest : List Char) (h : numStop rest) :
    parseDec (dumpDec v ++ rest) = some (v, rest) := by
  obtain ⟨m, e⟩ := v
  have hlt := padDigits_lt m.natAbs e
  have hlen := padDigits_length m.natAbs e
  have hofd := ofDigits_padDigits m.natAbs e
  by_cases he : e = 0
  · subst he
    have hds_ne : padDigits m.natAbs 0 ≠ [] := by
      intro h0; rw [h0] at hlen; simp at hlen
    have hrd_ne : renderDigits (padDigits m.natAbs 0) ≠ [] :=
      renderDigits_ne_nil hds_ne
    have hdig := mem_renderDigits_isDigitC hlt
    have hval : charsVal (renderDigits (padDigits m.natAbs 0)) = m.natAbs := by
      rw [charsVal_renderDigits hlt, hofd]
    have hspan : ((renderDigits (padDigits m.natAbs 0)) ++ rest).span isDigitC
        = (renderDigits (padDigits m.natAbs 0), rest) :=
      span_append_of_forall hdig (fun c hc => (h c hc).1)
    by_cases hm : m < 0
    · have hdump : dumpDec ⟨m, 0⟩ = '-' :: renderDigits (padDigits m.natAbs 0) := by
        simp [dumpDec, hm]
      rw [hdump]
      simp only [parseDec, List.cons_append, parseSign_neg, hspan]
      rw [parseDecAfter_int true _ rest hrd_ne h, hval]
      have : decSigned true m.natAbs = m := by
        show -((m.natAbs : ℕ) : ℤ) = m
        omega
      rw [this]
    · have hdump : dumpDec ⟨m, 0⟩ = renderDigits (padDigits m.natAbs 0) := by
        simp [dumpDec, hm]
      rw [hdump]
      simp only [parseDec, parseSign_of_digits hdig hrd_ne, hspan]
      rw [parseDecAfter_int false _ rest hrd_ne h, hval]
      have : decSigned false m.natAbs = m := by
        show ((m.natAbs : ℕ) : ℤ) = m
        omega
      rw [this]
  · -- fractional form: integer digits, decimal point, exactly e fractional digits
    have hhigh_lt : ∀ d ∈ (padDigits m.natAbs e).drop e, d < 10 :=
      fun d hd => hlt d (List.drop_subset e _ hd)
    have hlow_lt : ∀ d ∈ (padDigits m.natAbs e).take e, d < 10 :=
      fun d hd => hlt d (List.take_subset e _ hd)
    have hhigh_ne : (padDigits m.natAbs e).drop e ≠ [] := by
      intro h0
      have := congrArg List.length h0
      simp [List.length_drop] at this
      omega
    have hlow_len : ((padDigits m.natAbs e).take e).length = e := by
      simp [List.length_take]
      omega
    have hlow_ne : (padDigits m.natAbs e).take e ≠ [] := by
      intro h0
      rw [h0] at hlow_len
      simp at hlow_len
      omega
    have hrdh_ne : renderDigits ((padDigits m.natAbs e).drop e) ≠ [] :=
      renderDigits_ne_nil hhigh_ne
    have hrdl_ne : renderDigits ((padDigits m.natAbs e).take e) ≠ [] :=
      renderDigits_ne_nil hlow_ne
    have hdig_h := mem_renderDigits_isDigitC hhigh_lt
    have hdig_l := mem_renderDigits_isDigitC hlow_lt
    have hrdl_len : (renderDigits ((padDigits m.natAbs e).take e)).length = e := by
      rw [renderDigits_length, hlow_len]
    have hmag : charsVal (renderDigits ((padDigits m.natAbs e).drop e)) * 10 ^ e +
        charsVal (renderDigits ((padDigits m.natAbs e).take e)) = m.natAbs := by
      rw [charsVal_renderDigits hhigh_lt, charsVal_renderDigits hlow_lt]
      have hsp : Nat.ofDigits 10 ((padDigits m.natAbs e).take e ++
          (padDigits m.natAbs e).drop e) = m.natAbs := by
        rw [List.take_append_drop]; exact hofd
      rw [Nat.ofDigits_append, hlow_len] at hsp
      linarith
    have hspan : ((renderDigits ((padDigits m.natAbs e).drop e)) ++
        '.' :: (renderDigits ((padDigits m.natAbs e).take e) ++ rest)).span isDigitC
        = (renderDigits ((padDigits m.natAbs e).drop e),
           '.' :: (renderDigits ((padDigits m.natAbs e).take e) ++ rest)) :=
      span_append_of_forall hdig_h (by intro c hc; simp at hc; subst hc; decide)
    by_cases hm : m < 0
    · have hafter := parseDecAfter_frac true
        (renderDigits ((padDigits m.natAbs e).drop e))
        (renderDigits ((padDigits m.natAbs e).take e)) rest hrdh_ne hrdl_ne hdig_l h
      have hdump : dumpDec ⟨m, e⟩ = '-' :: (renderDigits ((padDigits m.natAbs e).drop e) ++
          '.' :: renderDigits ((padDigits m.natAbs e).take e)) := by
        simp [dumpDec, hm, he]
      rw [hdump]
      simp only [List.cons_append, List.append_assoc, List.nil_append]
      simp only [parseDec, parseSign_neg, hspan]
      rw [hafter, hrdl_len, hmag]
      have : decSigned true m.natAbs = m := by
        show -((m.natAbs : ℕ) : ℤ) = m
        omega
      rw [this]
    · have hafter := parseDecAfter_frac false
        (renderDigits ((padDigits m.natAbs e).drop e))
        (renderDigits ((padDigits m.natAbs e).take e)) rest hrdh_ne hrdl_ne hdig_l h
      have hdump : dumpDec ⟨m, e⟩ = renderDigits ((padDigits m.natAbs e).drop e) ++
          '.' :: renderDigits ((padDigits m.natAbs e).take e) := by
        simp [dumpDec, hm, he]
      rw [hdump]
      simp only [List.cons_append, List.append_assoc, List.nil_append]
      simp only [parseDec, parseSign_of_digits hdig_h hrdh_ne, hspan]
      rw [hafter, hrdl_len, hmag]
      have : decSigned false m.natAbs = m := by
        show ((m.natAbs : ℕ) : ℤ) = m
        omega
      rw [this]

lemma hexVal_hexDig {k : Nat} (h : k < 16) : hexVal (hexDig k) = some k := by
  interval_cases k <;> decide

theorem parseStrBody_escChar (c : Char) (tail r rest : List Char)
    (h : parseStrBody tail = some (r, rest)) :
    parseStrBody (escChar c ++ tail) = some (c :: r, rest) := by
  by_cases h1 : c = qc
  · subst h1
    rw [show escChar qc = [bsc, qc] from rfl,
      show ([bsc, qc] : List Char) ++ tail = bsc :: qc :: tail from rfl,
      parseStrBody.eq_def]
    simp [show ¬(bsc = qc) from by decide, show ¬(qc = 'u') from by decide,
      show unescShort qc = some qc from by decide, h]
  by_cases h2 : c = bsc
  · subst h2
    rw [show escChar bsc = [bsc, bsc] from rfl,
      show ([bsc, bsc] : List Char) ++ tail = bsc :: bsc :: tail from rfl,
      parseStrBody.eq_def]
    simp [show ¬(bsc = qc) from by decide, show ¬(bsc = 'u') from by decide,
      show unescShort bsc = some bsc from by decide, h]
  by_cases h3 : c = Char.ofNat 10
  · subst h3
    rw [show escChar (Char.ofNat 10) = [bsc, 'n'] from rfl,
      show ([bsc, 'n'] : List Char) ++ tail = bsc :: 'n' :: tail from rfl,
      parseStrBody.eq_def]
    simp [show ¬(bsc = qc) from by decide, show ¬(('n' : Char) = 'u') from by decide,
      show unescShort 'n' = some (Char.ofNat 10) from by decide, h]
  by_cases h4 : c = Char.ofNat 9
  · subst h4
    rw [show escChar (Char.ofNat 9) = [bsc, 't'] from rfl,
      show ([bsc, 't'] : List Char) ++ tail = bsc :: 't' :: tail from rfl,
      parseStrBody.eq_def]
    simp [show ¬(bsc = qc) from by decide, show ¬(('t' : Char) = 'u') from by decide,
      show unescShort 't' = some (Char.ofNat 9) from by decide, h]
  by_cases h5 : c = Char.ofNat 13
  · subst h5
    rw [show escChar (Char.ofNat 13) = [bsc, 'r'] from rfl,
      show ([bsc, 'r'] : List Char) ++ tail = bsc :: 'r' :: tail from rfl,
      parseStrBody.eq_def]
    simp [show ¬(bsc = qc) from by decide, show ¬(('r' : Char) = 'u') from by decide,
      show unescShort 'r' = some (Char.ofNat 13) from by decide, h]
  by_cases h6 : c = Char.ofNat 8
  · subst h6
    rw [show escChar (Char.ofNat 8) = [bsc, 'b'] from rfl,
      show ([bsc, 'b'] : List Char) ++ tail = bsc :: 'b' :: tail from rfl,
      parseStrBody.eq_def]
    simp [show ¬(bsc = qc) from by decide, show ¬(('b' : Char) = 'u') from by decide,
      show unescShort 'b' = some (Char.ofNat 8) from by decide, h]
  by_cases h7 : c = Char.ofNat 12
  · subst h7
    rw [show escChar (Char.ofNat 12) = [bsc, 'f'] from rfl,
      show ([bsc, 'f'] : List Char) ++ tail = bsc :: 'f' :: tail from rfl,
      parseStrBody.eq_def]
    simp [show ¬(bsc = qc) from by decide, show ¬(('f' : Char) = 'u') from by decide,
      show unescShort 'f' = some (Char.ofNat 12) from by decide, h]
  by_cases h8 : c.toNat < 32
  · have e1 : escChar c =
        [bsc, 'u', '0', '0', hexDig (c.toNat / 16), hexDig (c.toNat % 16)] := by
      simp only [escChar, if_neg h1, if_neg h2, if_neg h3, if_neg h4, if_neg h5,
        if_neg h6, if_neg h7, if_pos h8]
    have d1 : c.toNat / 16 < 16 := by omega
    have d2 : c.toNat % 16 < 16 := Nat.mod_lt _ (by omega)
    have hv : hex4 '0' '0' (hexDig (c.toNat / 16)) (hexDig (c.toNat % 16)) =
        some c.toNat := by
      rw [hex4, show hexVal '0' = some 0 from by decide,
        hexVal_hexDig d1, hexVal_hexDig d2]
      simp only [Option.some_bind, Option.map_some']
      congr 1
      omega
    rw [e1,
      show ([bsc, 'u', '0', '0', hexDig (c.toNat / 16), hexDig (c.toNat % 16)] :
          List Char) ++ tail =
        bsc :: 'u' :: '0' :: '0' :: hexDig (c.toNat / 16) ::
          hexDig (c.toNat % 16) :: tail from rfl,
      parseStrBody.eq_def]
    simp [show ¬(bsc = qc) from by decide, hv, h]
  · have e1 : escChar c = [c] := by
      simp only [escChar, if_neg h1, if_neg h2, if_neg h3, if_neg h4, if_neg h5,
        if_neg h6, if_neg h7, if_neg h8]
    rw [e1, show ([c] : List Char) ++ tail = c :: tail from rfl,
      parseStrBody.eq_def]
    simp [if_neg h1, if_neg h2, h]

theorem parseStrBody_dump (l : List Char) : ∀ rest : List Char,
    parseStrBody ((l.map escChar).flatten ++ qc :: rest) = some (l, rest) := by
  induction l with
  | nil =>
    intro rest
    rw [show (List.map escChar []).flatten ++ qc :: rest = qc :: rest from rfl,
      parseStrBody.eq_def]
    simp
  | cons c l ih =>
    intro rest
    have step := parseStrBody_escChar c ((l.map escChar).flatten ++ qc :: rest)
      l rest (ih rest)
    simpa [List.append_assoc] using step

theorem parseStr_dumpStr (s : String) (rest : List Char) :
    parseStr (dumpStr s ++ rest) = some (s.data, rest) := by
  have e1 : dumpStr s ++ rest = qc :: ((s.data.map escChar).flatten ++ qc :: rest) := by
    simp [dumpStr]
  rw [e1]
  rw [show parseStr (qc :: ((s.data.map escChar).flatten ++ qc :: rest)) =
    parseStrBody ((s.data.map escChar).flatten ++ qc :: rest) from rfl]
  exact parseStrBody_dump s.data rest

theorem parseStrS_dumpStr (s : String) (rest : List Char) :
    parseStrS (dumpStr s ++ rest) = some (s, rest) := by
  rw [parseStrS, parseStr_dumpStr]

lemma expectC_self (c : Char) (r : List Char) : expectC c (c :: r) = some r := by
  simp [expectC]

lemma numStop_cons {c : Char} (h1 : isDigitC c = false) (h2 : c ≠ '.')
    (X : List Char) : numStop (c :: X) := by
  intro d hd
  simp only [List.head?] at hd
  cases hd
  exact ⟨h1, h2⟩

lemma parseDec_dump_comma (v : Dec) (X : List Char) :
    parseDec (dumpDec v ++ ',' :: X) = some (v, ',' :: X) :=
  parseDec_dumpDec v _ (numStop_cons (by decide) (by decide) X)

lemma sepDump_length_ge (f : α → List Char) (hf : ∀ a, f a ≠ []) :
    ∀ items : List α, items.length ≤ (sepDump f items).length := by
  intro items
  induction items with
  | nil => simp [sepDump]
  | cons a as ih =>
    cases as with
    | nil =>
      have := List.length_pos.mpr (hf a)
      simpa [sepDump] using this
    | cons b bs =>
      have := List.length_pos.mpr (hf a)
      simp only [sepDump, List.length_append, List.length_cons] at *
      omega

lemma sepParse_rt (pf : List Char → Option (α × List Char)) (f : α → List Char)
    (hpf : ∀ a r, pf (f a ++ r) = some (a, r)) :
    ∀ (items : List α), items ≠ [] → ∀ (fuel : Nat), items.length ≤ fuel →
    ∀ (rest : List Char),
    sepParse pf fuel (sepDump f items ++ ']' :: rest) = some (items, rest) := by
  intro items
  induction items with
  | nil => intro h; exact absurd rfl h
  | cons a as ih =>
    intro _ fuel hfuel rest
    cases fuel with
    | zero => simp at hfuel
    | succ fuel =>
      cases as with
      | nil =>
        rw [show sepDump f [a] = f a from rfl]
        rw [sepParse, hpf a (']' :: rest)]
        simp
      | cons b bs =>
        rw [show sepDump f (a :: b :: bs) = f a ++ ',' :: sepDump f (b :: bs) from rfl]
        rw [List.append_assoc, List.cons_append]
        rw [sepParse, hpf a (',' :: (sepDump f (b :: bs) ++ ']' :: rest))]
        simp only [if_pos rfl]
        rw [ih (by simp) fuel (by simpa using Nat.le_of_succ_le_succ hfuel) rest]
        simp

lemma parseArr_rt (pf : List Char → Option (α × List Char)) (f : α → List Char)
    (hpf : ∀ a r, pf (f a ++ r) = some (a, r))
    (hhead : ∀ a, ∃ c cs, f a = c :: cs ∧ c ≠ ']') :
    ∀ (items : List α) (rest : List Char),
    parseArr pf (dumpArr f items ++ rest) = some (items, rest) := by
  intro items rest
  cases items with
  | nil =>
    rw [show dumpArr f [] ++ rest = '[' :: ']' :: rest from rfl]
    rw [parseArr]
    simp
  | cons a as =>
    have hf_ne : ∀ x, f x ≠ [] := by
      intro x
      obtain ⟨c, cs, hx, _⟩ := hhead x
      simp [hx]
    obtain ⟨c0, cs0, hfa, hc0⟩ := hhead a
    have hsd : ∃ t, sepDump f (a :: as) = c0 :: t := by
      cases as with
      | nil => exact ⟨cs0, by simp [sepDump, hfa]⟩
      | cons b bs => exact ⟨cs0 ++ ',' :: sepDump f (b :: bs), by simp [sepDump, hfa]⟩
    obtain ⟨t, ht⟩ := hsd
    have hlen : (a :: as).length ≤ (c0 :: (t ++ ']' :: rest)).length := by
      have h1 := sepDump_length_ge f hf_ne (a :: as)
      rw [ht] at h1
      simp only [List.length_cons, List.length_append] at *
      omega
    have hmain := sepParse_rt pf f hpf (a :: as) (by simp)
      ((c0 :: (t ++ ']' :: rest)).length) hlen rest
    rw [ht] at hmain
    simp only [List.cons_append] at hmain
    rw [show dumpArr f (a :: as) ++ rest =
      '[' :: (sepDump f (a :: as) ++ ']' :: rest) from by simp [dumpArr]]
    rw [ht]
    simp only [List.cons_append]
    rw [parseArr]
    simp only [if_pos rfl, if_neg hc0]
    exact hmain

lemma parseField_dump (key : String) (pv : List Char → Option (α × List Char))
    (l : List Char) : parseField key pv (dumpStr key ++ ':' :: l) = pv l := by
  simp [parseField, parseStr_dumpStr, expectC]

lemma parseArr_dumpStrArr (ts : List String) (X : List Char) :
    parseArr parseStrS (dumpArr dumpStr ts ++ X) = some (ts, X) :=
  parseArr_rt parseStrS dumpStr (fun a r => parseStrS_dumpStr a r)
    (fun a => ⟨qc, (a.data.map escChar).flatten ++ [qc], rfl, by decide⟩) ts X

theorem parsePoi_dumpPoi (p : Poi) (rest : List Char) :
    parsePoi (dumpPoi p ++ rest) = some (p, rest) := by
  obtain ⟨i, nm, la, lo, ts⟩ := p
  rw [dumpPoi]
  simp only [List.cons_append, List.append_assoc, List.nil_append]
  rw [parsePoi]
  rw [expectC_self, Option.some_bind]
  rw [parseField_dump "id" parseStrS _, parseStrS_dumpStr, Option.some_bind]
  rw [expectC_self, Option.some_bind]
  rw [parseField_dump "name" parseStrS _, parseStrS_dumpStr, Option.some_bind]
  rw [expectC_self, Option.some_bind]
  rw [parseField_dump "lat" parseDec _, parseDec_dump_comma, Option.some_bind]
  rw [expectC_self, Option.some_bind]
  rw [parseField_dump "lon" parseDec _, parseDec_dump_comma, Option.some_bind]
  rw [expectC_self, Option.some_bind]
  rw [parseField_dump "tags" (parseArr parseStrS) _, parseArr_dumpStrArr,
    Option.some_bind]
  rw [expectC_self, Option.some_bind]

theorem parse_pois_dumpPois (l : List Poi) : parse_pois (dumpPois l) = some l := by
  have h := parseArr_rt parsePoi dumpPoi (fun a r => parsePoi_dumpPoi a r)
    (fun a => ⟨lcb, (dumpStr "id" ++ ':' :: dumpStr a.id ++
      ',' :: dumpStr "name" ++ ':' :: dumpStr a.name ++
      ',' :: dumpStr "lat" ++ ':' :: dumpDec a.lat ++
      ',' :: dumpStr "lon" ++ ':' :: dumpDec a.lon ++
      ',' :: dumpStr "tags" ++ ':' :: dumpArr dumpStr a.tags) ++ [rcb],
      rfl, by decide⟩) l []
  rw [List.append_nil] at h
  rw [parse_pois, dumpPois, h]

theorem load_pois_save_pois (l : List Poi) : load_pois (save_pois l) = .ok l := by
  rw [save_pois, load_pois, parse_pois_dumpPois]

theorem list_pois_save_pois (l : List Poi) : list_pois (save_pois l) = .ok l := by
  rw [save_pois, list_pois, parse_pois_dumpPois]

/- ===== Store-level lemmas ===== -/

lemma create_poi_dup {newId : String} {cand : PoiIn} {st : FileState}
    {pois : List Poi} (h : load_pois st = .ok pois)
    (hmem : normName cand.name ∈ pois.map fun p => normName p.name) :
    create_poi newId cand st =
      (st, .error (.http 409 "POI с таким названием уже существует")) := by
  simp only [create_poi, h, if_pos hmem]

lemma create_poi_fresh {newId : String} {cand : PoiIn} {st : FileState}
    {pois : List Poi} (h : load_pois st = .ok pois)
    (hmem : normName cand.name ∉ pois.map fun p => normName p.name) :
    create_poi newId cand st =
      (save_pois (pois ++ [⟨newId, String.mk (pyStrip cand.name.data),
        cand.lat, cand.lon, cand.tags⟩]),
       .ok ⟨newId, String.mk (pyStrip cand.name.data),
        cand.lat, cand.lon, cand.tags⟩) := by
  simp only [create_poi, h, if_neg hmem]

lemma filter_ne_eq_self {pois : List Poi} {poiId : String}
    (h : ∀ p ∈ pois, p.id ≠ poiId) :
    pois.filter (fun p => p.id ≠ poiId) = pois :=
  List.filter_eq_self.mpr (fun p hp => by simpa using h p hp)

lemma filter_ne_eq_erase {pois : List Poi} {p : Poi} {poiId : String}
    (hmem : p ∈ pois) (hid : p.id = poiId)
    (hnodup : (pois.map Poi.id).Nodup) :
    pois.filter (fun x => x.id ≠ poiId) = pois.erase p := by
  induction pois with
  | nil => simp at hmem
  | cons q qs ih =>
    simp only [List.map_cons, List.nodup_cons] at hnodup
    by_cases hqp : q = p
    · subst hqp
      rw [List.erase_cons_head]
      rw [List.filter_cons_of_neg (by simp [hid])]
      apply filter_ne_eq_self
      intro x hx hxid
      exact hnodup.1 (List.mem_map.mpr ⟨x, hx, hxid.trans hid.symm⟩)
    · have hmem2 : p ∈ qs := by
        rcases List.mem_cons.mp hmem with h1 | h1
        · exact absurd h1.symm hqp
        · exact h1
      have hqid : q.id ≠ poiId := by
        intro hq
        exact hnodup.1 (List.mem_map.mpr ⟨p, hmem2, by rw [hid, hq]⟩)
      rw [List.filter_cons_of_pos (by simpa using hqid),
        List.erase_cons_tail (by simp [hqp]), ih hmem2 hnodup.2]

/- ===== Claim theorems ===== -/

/-- C8: saving a POI collection and then loading (or listing) it returns the
same records in the same order, through the full serialize/parse model. -/
theorem claim_C8 (l : List Poi) :
    load_pois (save_pois l) = .ok l ∧ list_pois (save_pois l) = .ok l :=
  ⟨load_pois_save_pois l, list_pois_save_pois l⟩

/-- C2: the claim says the list operation returns an empty collection when
the POI file does not exist.  The code disagrees: `list_pois` opens the file
unconditionally and the missing file surfaces as an unhandled error, while
`load_pois` (used by create/delete) is the one that returns `[]`; on an
existing file both fail only when parsing fails. -/
theorem claim_C2_code_eval :
    list_pois (none : FileState) = .error .fileMissing ∧
    load_pois (none : FileState) = .ok [] ∧
    list_pois (some ['x']) = .error .badJson ∧
    list_pois (save_pois []) = .ok [] :=
  ⟨rfl, rfl, rfl, rfl⟩

/-- C1: against the collection the store loads, a candidate whose
trimmed-lowercased name collides with an existing entry is rejected with
HTTP 409 and the file is untouched; otherwise the entry is appended with the
fresh identifier and the trimmed name, the file is rewritten, and the created
record is returned. -/
theorem claim_C1 (newId : String) (cand : PoiIn) (st : FileState)
    (pois : List Poi) (h : load_pois st = .ok pois) :
    (normName cand.name ∈ (pois.map fun p => normName p.name) →
      create_poi newId cand st =
        (st, .error (.http 409 "POI с таким названием уже существует"))) ∧
    (normName cand.name ∉ (pois.map fun p => normName p.name) →
      create_poi newId cand st =
        (save_pois (pois ++ [⟨newId, String.mk (pyStrip cand.name.data),
          cand.lat, cand.lon, cand.tags⟩]),
         .ok ⟨newId, String.mk (pyStrip cand.name.data),
          cand.lat, cand.lon, cand.tags⟩)) :=
  ⟨fun hmem => create_poi_dup h hmem, fun hmem => create_poi_fresh h hmem⟩

/-- C1 witness: over a stored collection with name "café", creating
" Café " (case and whitespace differences only) fails with 409, while
creating " Neu " succeeds, trims the name, appends and returns the record. -/
theorem claim_C1_witness :
    create_poi "id9" ⟨" Café ", ⟨1, 0⟩, ⟨2, 0⟩, []⟩
        (save_pois [⟨"a", "café", ⟨1, 0⟩, ⟨2, 0⟩, []⟩]) =
      (save_pois [⟨"a", "café", ⟨1, 0⟩, ⟨2, 0⟩, []⟩],
       .error (.http 409 "POI с таким названием уже существует")) ∧
    create_poi "id9" ⟨" Neu ", ⟨1, 0⟩, ⟨2, 0⟩, []⟩
        (save_pois [⟨"a", "café", ⟨1, 0⟩, ⟨2, 0⟩, []⟩]) =
      (save_pois [⟨"a", "café", ⟨1, 0⟩, ⟨2, 0⟩, []⟩,
        ⟨"id9", "Neu", ⟨1, 0⟩, ⟨2, 0⟩, []⟩],
       .ok ⟨"id9", "Neu", ⟨1, 0⟩, ⟨2, 0⟩, []⟩) :=
  ⟨(claim_C1 "id9" ⟨" Café ", ⟨1, 0⟩, ⟨2, 0⟩, []⟩ _ [⟨"a", "café", ⟨1, 0⟩, ⟨2, 0⟩, []⟩]
      (by rfl)).1 (by decide),
   (claim_C1 "id9" ⟨" Neu ", ⟨1, 0⟩, ⟨2, 0⟩, []⟩ _ [⟨"a", "café", ⟨1, 0⟩, ⟨2, 0⟩, []⟩]
      (by rfl)).2 (by decide)⟩

/-- C10: a create that fails with the duplicate-name error writes nothing:
the resulting file state is exactly the one before the call. -/
theorem claim_C10 (newId : String) (cand : PoiIn) (st : FileState)
    (pois : List Poi) (h : load_pois st = .ok pois)
    (hmem : normName cand.name ∈ (pois.map fun p => normName p.name)) :
    (create_poi newId cand st).1 = st ∧
    (create_poi newId cand st).2 =
      .error (.http 409 "POI с таким названием уже существует") := by
  rw [create_poi_dup h hmem]
  exact ⟨rfl, rfl⟩

/-- C10 witness at a concrete duplicate create. -/
theorem claim_C10_witness :
    (create_poi "id9" ⟨" Café ", ⟨1, 0⟩, ⟨2, 0⟩, []⟩
        (save_pois [⟨"a", "café", ⟨1, 0⟩, ⟨2, 0⟩, []⟩])).1 =
      save_pois [⟨"a", "café", ⟨1, 0⟩, ⟨2, 0⟩, []⟩] ∧
    (create_poi "id9" ⟨" Café ", ⟨1, 0⟩, ⟨2, 0⟩, []⟩
        (save_pois [⟨"a", "café", ⟨1, 0⟩, ⟨2, 0⟩, []⟩])).2 =
      .error (.http 409 "POI с таким названием уже существует") :=
  claim_C10 "id9" ⟨" Café ", ⟨1, 0⟩, ⟨2, 0⟩, []⟩ _
    [⟨"a", "café", ⟨1, 0⟩, ⟨2, 0⟩, []⟩] (by rfl) (by decide)

/-- C3 counterexample: the single-space name " " passes the validator
(`min_length=1` is checked before trimming), yet create trims it to the
empty name and persists it — so validation does not guarantee a non-empty
name after the trimming create applies. -/
theorem claim_C3_counterexample :
    validatePoiIn ⟨" ", ⟨0, 0⟩, ⟨0, 0⟩, []⟩ = true ∧
    (create_poi "id1" ⟨" ", ⟨0, 0⟩, ⟨0, 0⟩, []⟩ (save_pois [])).2 =
      .ok ⟨"id1", "", ⟨0, 0⟩, ⟨0, 0⟩, []⟩ ∧
    load_pois (create_poi "id1" ⟨" ", ⟨0, 0⟩, ⟨0, 0⟩, []⟩ (save_pois [])).1 =
      .ok [⟨"id1", "", ⟨0, 0⟩, ⟨0, 0⟩, []⟩] :=
  ⟨rfl, rfl, rfl⟩

/-- C3 amended: validation only guarantees the raw name is non-empty; the
non-empty-name invariant is preserved by create exactly for candidates whose
trimmed name is non-empty (whitespace-only names pass validation but are
persisted with an empty name). -/
theorem claim_C3_amended (newId : String) (cand : PoiIn) (st st1 : FileState)
    (pois : List Poi) (item : Poi)
    (h : load_pois st = .ok pois)
    (htrim : pyStrip cand.name.data ≠ [])
    (hold : ∀ p ∈ pois, p.name ≠ "")
    (hcreate : create_poi newId cand st = (st1, .ok item)) :
    item.name ≠ "" ∧
    ∃ pois1, load_pois st1 = .ok pois1 ∧ ∀ p ∈ pois1, p.name ≠ "" := by
  by_cases hmem : normName cand.name ∈ (pois.map fun p => normName p.name)
  · rw [create_poi_dup h hmem] at hcreate
    have h2 := congrArg Prod.snd hcreate
    simp at h2
  · rw [create_poi_fresh h hmem] at hcreate
    have h1 := congrArg Prod.fst hcreate
    have h2 := congrArg Prod.snd hcreate
    simp only at h1 h2
    have hitem : item = ⟨newId, String.mk (pyStrip cand.name.data),
        cand.lat, cand.lon, cand.tags⟩ := by
      injection h2 with h3
      exact h3.symm
    have hname : item.name ≠ "" := by
      rw [hitem]
      show String.mk (pyStrip cand.name.data) ≠ ""
      intro hx
      apply htrim
      have hdata := congrArg String.data hx
      simpa using hdata
    refine ⟨hname, pois ++ [item], ?_, ?_⟩
    · rw [← h1, hitem, load_pois_save_pois]
    · intro p hp
      rcases List.mem_append.mp hp with hp1 | hp1
      · exact hold p hp1
      · rw [List.mem_singleton.mp hp1]
        exact hname

/-- C3 amended witness: creating " x " (trimmed name "x", non-empty) on an
empty store preserves the invariant. -/
theorem claim_C3_amended_witness :
    (⟨"i1", "x", ⟨0, 0⟩, ⟨0, 0⟩, []⟩ : Poi).name ≠ "" ∧
    ∃ pois1, load_pois (save_pois [⟨"i1", "x", ⟨0, 0⟩, ⟨0, 0⟩, []⟩]) = .ok pois1 ∧
      ∀ p ∈ pois1, p.name ≠ "" :=
  claim_C3_amended "i1" ⟨" x ", ⟨0, 0⟩, ⟨0, 0⟩, []⟩ (save_pois [])
    (save_pois [⟨"i1", "x", ⟨0, 0⟩, ⟨0, 0⟩, []⟩]) [] ⟨"i1", "x", ⟨0, 0⟩, ⟨0, 0⟩, []⟩
    (by rfl) (by decide) (by simp) (by rfl)

/-- C6: deletion removes exactly the entry with the matching identifier and
persists the reduced collection; with no matching entry it fails with
HTTP 404 and leaves the file untouched. -/
theorem claim_C6 (poiId : String) (st : FileState) (pois : List Poi)
    (h : load_pois st = .ok pois) :
    ((∀ p ∈ pois, p.id ≠ poiId) →
      delete_poi poiId st = (st, .error (.http 404 "POI не найден"))) ∧
    (∀ p ∈ pois, p.id = poiId → (pois.map Poi.id).Nodup →
      delete_poi poiId st = (save_pois (pois.erase p), .ok ()) ∧
      load_pois (delete_poi poiId st).1 = .ok (pois.erase p)) := by
  constructor
  · intro hnone
    have hfil : pois.filter (fun p => p.id ≠ poiId) = pois := filter_ne_eq_self hnone
    have hlen : (pois.filter (fun p => p.id ≠ poiId)).length = pois.length := by
      rw [hfil]
    simp only [delete_poi, h, if_pos hlen]
  · intro p hp hid hnodup
    have hfil : pois.filter (fun x => x.id ≠ poiId) = pois.erase p :=
      filter_ne_eq_erase hp hid hnodup
    have hlen : (pois.erase p).length ≠ pois.length := by
      rw [List.length_erase_of_mem hp]
      have := List.length_pos.mpr (List.ne_nil_of_mem hp)
      omega
    have hdel : delete_poi poiId st = (save_pois (pois.erase p), .ok ()) := by
      simp only [delete_poi, h, hfil, if_neg hlen]
    refine ⟨hdel, ?_⟩
    rw [hdel, load_pois_save_pois]

/-- C6 witness: deleting id "a" from a two-record store removes exactly that
record; deleting an unknown id fails with 404 and leaves the state intact. -/
theorem claim_C6_witness :
    delete_poi "zz" (save_pois [⟨"a", "x", ⟨1, 0⟩, ⟨2, 0⟩, []⟩,
        ⟨"b", "y", ⟨3, 0⟩, ⟨4, 0⟩, []⟩]) =
      (save_pois [⟨"a", "x", ⟨1, 0⟩, ⟨2, 0⟩, []⟩, ⟨"b", "y", ⟨3, 0⟩, ⟨4, 0⟩, []⟩],
       .error (.http 404 "POI не найден")) ∧
    delete_poi "a" (save_pois [⟨"a", "x", ⟨1, 0⟩, ⟨2, 0⟩, []⟩,
        ⟨"b", "y", ⟨3, 0⟩, ⟨4, 0⟩, []⟩]) =
      (save_pois [⟨"b", "y", ⟨3, 0⟩, ⟨4, 0⟩, []⟩], .ok ()) :=
  ⟨(claim_C6 "zz" _ [⟨"a", "x", ⟨1, 0⟩, ⟨2, 0⟩, []⟩, ⟨"b", "y", ⟨3, 0⟩, ⟨4, 0⟩, []⟩]
      (by rfl)).1 (by decide),
   ((claim_C6 "a" _ [⟨"a", "x", ⟨1, 0⟩, ⟨2, 0⟩, []⟩, ⟨"b", "y", ⟨3, 0⟩, ⟨4, 0⟩, []⟩]
      (by rfl)).2 ⟨"a", "x", ⟨1, 0⟩, ⟨2, 0⟩, []⟩ (by decide) (by decide) (by decide)).1⟩

/- ===== Gateway lemmas ===== -/

lemma pyRound_abs (x : ℚ) : |(pyRound x : ℚ) - x| ≤ 1 / 2 := by
  have h1 : ((⌊x⌋ : ℤ) : ℚ) ≤ x := Int.floor_le x
  have h2 : x < (⌊x⌋ : ℤ) + 1 := Int.lt_floor_add_one x
  simp only [pyRound]
  split_ifs with ha hb hc <;> rw [abs_le] <;> constructor <;> push_cast <;> linarith

lemma pyRound3_abs (x : ℚ) : |pyRound3 x - x| ≤ 1 / 2000 := by
  have h := pyRound_abs (x * 1000)
  have e1 : pyRound3 x - x = ((pyRound (x * 1000) : ℚ) - x * 1000) / 1000 := by
    rw [pyRound3]; ring
  rw [e1, abs_div, abs_of_pos (by norm_num : (0 : ℚ) < 1000)]
  rw [div_le_div_iff₀ (by norm_num) (by norm_num : (0 : ℚ) < 2000)]
  nlinarith [abs_nonneg ((pyRound (x * 1000) : ℚ) - x * 1000)]

lemma floor_q_3500 : ⌊(3500 : ℚ)⌋ = 3500 := by
  rw [show ((3500 : ℚ)) = ((3500 : ℤ) : ℚ) from by norm_num, Int.floor_intCast]

lemma floor_q_45 : ⌊(45 : ℚ)⌋ = 45 := by
  rw [show ((45 : ℚ)) = ((45 : ℤ) : ℚ) from by norm_num, Int.floor_intCast]

lemma pyRound_3500 : pyRound (3500 : ℚ) = 3500 := by
  simp only [pyRound, floor_q_3500]
  norm_num

lemma pyRound_45 : pyRound (45 : ℚ) = 45 := by
  simp only [pyRound, floor_q_45]
  norm_num

lemma pyRound3_spec_example : pyRound3 ((3500 : ℚ) / 1000) = 7 / 2 := by
  rw [pyRound3, show ((3500 : ℚ) / 1000) * 1000 = 3500 from by norm_num, pyRound_3500]
  norm_num

lemma pyRound_spec_example : pyRound ((2700 : ℚ) / 60) = 45 := by
  rw [show ((2700 : ℚ) / 60) = 45 from by norm_num, pyRound_45]

lemma geoFold_eq (fs : List GeoFeature)
    (hok : ∀ f ∈ fs, f.geomType = some "Point" →
      ∃ lon lat, f.coordinates.getD [none, none] = [lon, lat]) :
    geoFold fs = .ok (fs.filterMap fun f =>
      if f.geomType = some "Point" then
        match f.coordinates.getD [none, none] with
        | [lon, lat] => some ⟨pyOrStr f.label f.name, lat, lon⟩
        | _ => none
      else none) := by
  induction fs with
  | nil => rfl
  | cons f fs ih =>
    have ihh := ih (fun g hg => hok g (by simp [hg]))
    by_cases hp : f.geomType = some "Point"
    · obtain ⟨lon, lat, hco⟩ := hok f (by simp) hp
      rw [geoFold,
        show geoStep f = .ok (some ⟨pyOrStr f.label f.name, lat, lon⟩) from by
          simp only [geoStep, if_pos hp, hco],
        ihh, List.filterMap_cons]
      simp only [if_pos hp, hco]
    · rw [geoFold, show geoStep f = .ok none from by simp only [geoStep, if_neg hp],
        ihh, List.filterMap_cons]
      simp only [if_neg hp]

lemma geoFold_length (fs : List GeoFeature) (out : List GeoHit)
    (h : geoFold fs = .ok out) : out.length ≤ fs.length := by
  induction fs generalizing out with
  | nil =>
    simp only [geoFold] at h
    injection h with h1
    subst h1
    simp
  | cons f fs ih =>
    rw [geoFold] at h
    cases hstep : geoStep f with
    | error e => rw [hstep] at h; exact Except.noConfusion h
    | ok o =>
      cases o with
      | none =>
        rw [hstep] at h
        have := ih out h
        simp only [List.length_cons]
        omega
      | some hit =>
        rw [hstep] at h
        cases hfold : geoFold fs with
        | error e => rw [hfold] at h; exact Except.noConfusion h
        | ok hs =>
          rw [hfold] at h
          injection h with h1
          subst h1
          have := ih hs hfold
          simp only [List.length_cons]
          omega

/- ===== Gateway claim theorems ===== -/

/-- C4: on a successful response with at least one feature, route returns the
first feature's summary distance divided by 1000 and rounded to three decimal
places, the duration divided by 60 and rounded to the nearest integer
(Python round-half-to-even; the bounds state that the result is within half a
unit in the last rounded place), the full geometry payload and the profile;
in particular distance 3500.0 m and duration 2700.0 s give 3.5 km and 45 min. -/
theorem claim_C4 (pf : String → Option ℚ) (fc tc profile : String)
    (provider : RouteReq → RouteResp) (fla flo tla tlo d t : ℚ)
    (feat : RouteFeature) (fs : List RouteFeature)
    (hfc : parseCoordWith pf fc = some (fla, flo))
    (htc : parseCoordWith pf tc = some (tla, tlo))
    (hstatus : (provider ⟨profile, [[flo, fla], [tlo, tla]], false, false,
      [50, 50], "recommended"⟩).status = 200)
    (hfeat : (provider ⟨profile, [[flo, fla], [tlo, tla]], false, false,
      [50, 50], "recommended"⟩).features = feat :: fs)
    (hd : feat.summaryDistance = some d)
    (ht : feat.summaryDuration = some t) :
    route pf fc tc profile provider =
      ([⟨profile, [[flo, fla], [tlo, tla]], false, false, [50, 50], "recommended"⟩],
       .ok { geojson := provider ⟨profile, [[flo, fla], [tlo, tla]], false, false,
               [50, 50], "recommended"⟩
             distance_km := pyRound3 (d / 1000)
             duration_min := pyRound (t / 60)
             profile := profile }) ∧
    (∃ z : ℤ, pyRound3 (d / 1000) = (z : ℚ) / 1000) ∧
    |pyRound3 (d / 1000) - d / 1000| ≤ 1 / 2000 ∧
    |(pyRound (t / 60) : ℚ) - t / 60| ≤ 1 / 2 ∧
    pyRound3 ((3500 : ℚ) / 1000) = 7 / 2 ∧
    pyRound ((2700 : ℚ) / 60) = 45 := by
  refine ⟨?_, ⟨pyRound (d / 1000 * 1000), rfl⟩, pyRound3_abs _, pyRound_abs _,
    pyRound3_spec_example, pyRound_spec_example⟩
  simp only [route, hfc, htc, hstatus, hfeat, hd, ht]
  simp [Option.getD]

/-- C4 witness at the spec's concrete route example. -/
theorem claim_C4_witness :
    route (fun _ => some 0) "48.8584,2.2945" "48.8606,2.3376" "foot-walking"
        (fun _ => ⟨200, "", [⟨some 3500, some 2700⟩]⟩) =
      ([⟨"foot-walking", [[0, 0], [0, 0]], false, false, [50, 50], "recommended"⟩],
       .ok { geojson := ⟨200, "", [⟨some 3500, some 2700⟩]⟩
             distance_km := pyRound3 ((3500 : ℚ) / 1000)
             duration_min := pyRound ((2700 : ℚ) / 60)
             profile := "foot-walking" }) ∧
    (∃ z : ℤ, pyRound3 ((3500 : ℚ) / 1000) = (z : ℚ) / 1000) ∧
    |pyRound3 ((3500 : ℚ) / 1000) - (3500 : ℚ) / 1000| ≤ 1 / 2000 ∧
    |(pyRound ((2700 : ℚ) / 60) : ℚ) - (2700 : ℚ) / 60| ≤ 1 / 2 ∧
    pyRound3 ((3500 : ℚ) / 1000) = 7 / 2 ∧
    pyRound ((2700 : ℚ) / 60) = 45 :=
  claim_C4 (fun _ => some 0) "48.8584,2.2945" "48.8606,2.3376" "foot-walking"
    (fun _ => ⟨200, "", [⟨some 3500, some 2700⟩]⟩) 0 0 0 0 3500 2700
    ⟨some 3500, some 2700⟩ [] (by rfl) (by rfl) (by rfl) (by rfl) (by rfl) (by rfl)

/-- C7: when either coordinate string fails to parse into exactly two numeric
components, route answers HTTP 400 and issues no provider request at all. -/
theorem claim_C7 (pf : String → Option ℚ) (fc tc profile : String)
    (provider : RouteReq → RouteResp)
    (h : parseCoordWith pf fc = none ∨ parseCoordWith pf tc = none) :
    route pf fc tc profile provider =
      ([], .error (.http 400 "Неверный формат координат. Ожидал lat,lon.")) := by
  rcases hfc : parseCoordWith pf fc with _ | fp
  · rcases htc : parseCoordWith pf tc with _ | tp
    · simp [route, hfc, htc]
    · simp [route, hfc, htc]
  · rcases htc : parseCoordWith pf tc with _ | tp
    · simp [route, hfc, htc]
    · exfalso
      rw [hfc, htc] at h
      rcases h with h1 | h1 <;> exact Option.noConfusion h1

/-- C7 witness: coordinate string "invalid" yields the 400 error with no
request issued, whatever the provider would have answered. -/
theorem claim_C7_witness :
    route (fun _ => none) "invalid" "48.8606,2.3376" "foot-walking"
        (fun _ => ⟨200, "", []⟩) =
      ([], .error (.http 400 "Неверный формат координат. Ожидал lat,lon.")) :=
  claim_C7 (fun _ => none) "invalid" "48.8606,2.3376" "foot-walking"
    (fun _ => ⟨200, "", []⟩) (Or.inl (by rfl))

/-- C5 counterexample: a point feature with neither label nor name is NOT
skipped — it is returned with an absent label — contradicting the claim that
entries lacking a usable label are silently skipped. -/
theorem claim_C5_counterexample :
    (geocode "Mo" (fun _ => ⟨200, "",
        [⟨some "Point", some [some 37, some 55], none, none⟩]⟩)).2 =
      .ok [⟨none, some 55, some 37⟩] ∧
    ([⟨none, some 55, some 37⟩] : List GeoHit) ≠ [] :=
  ⟨rfl, by decide⟩

/-- C5 amended: on success the result contains exactly the point-type
features, in provider order, each with the provider's (lon, lat) pair swapped
to (lat, lon) and with the label falling back from `label` to `name`;
non-point features are skipped, but a point feature without a usable label is
still included, with an absent label. -/
theorem claim_C5_amended (q : String) (provider : GeoReq → GeoResp)
    (hq : ¬q.length < 2)
    (hstatus : (provider ⟨q, 5⟩).status = 200)
    (hco : ∀ f ∈ (provider ⟨q, 5⟩).features, f.geomType = some "Point" →
      ∃ lon lat, f.coordinates.getD [none, none] = [lon, lat]) :
    geocode q provider = ([⟨q, 5⟩],
      .ok ((provider ⟨q, 5⟩).features.filterMap fun f =>
        if f.geomType = some "Point" then
          match f.coordinates.getD [none, none] with
          | [lon, lat] => some ⟨pyOrStr f.label f.name, lat, lon⟩
          | _ => none
        else none)) := by
  simp only [geocode, if_neg hq, hstatus, geoFold_eq _ hco]
  simp

/-- C5 amended witness at the spec's Moscow example: provider coordinates
[37.6173, 55.7558] with label "Moscow, Russia" come back as
(label, lat 55.7558, lon 37.6173). -/
theorem claim_C5_amended_witness :
    geocode "Moscow" (fun _ => ⟨200, "",
        [⟨some "Point", some [some 37.6173, some 55.7558],
          some "Moscow, Russia", some "Moscow"⟩]⟩) =
      ([⟨"Moscow", 5⟩],
       .ok (([(⟨some "Point", some [some 37.6173, some 55.7558],
          some "Moscow, Russia", some "Moscow"⟩ : GeoFeature)]).filterMap fun f =>
        if f.geomType = some "Point" then
          match f.coordinates.getD [none, none] with
          | [lon, lat] => some ⟨pyOrStr f.label f.name, lat, lon⟩
          | _ => none
        else none)) :=
  claim_C5_amended "Moscow"
    (fun _ => ⟨200, "", [⟨some "Point", some [some 37.6173, some 55.7558],
      some "Moscow, Russia", some "Moscow"⟩]⟩)
    (by decide) (by rfl)
    (by
      intro f hf hp
      rw [List.mem_singleton.mp hf]
      exact ⟨some 37.6173, some 55.7558, rfl⟩)

/-- C9 counterexample: when the provider ignores the requested size and
returns six point features, the handler returns six entries — the code does
not cap the result at 5. -/
theorem claim_C9_counterexample :
    (geocode "Mo" (fun _ => ⟨200, "",
        List.replicate 6 ⟨some "Point", some [some 1, some 2], some "L", none⟩⟩)).2 =
      .ok (List.replicate 6 ⟨some "L", some 2, some 1⟩) ∧
    5 < (List.replicate 6 (⟨some "L", some 2, some 1⟩ : GeoHit)).length :=
  ⟨rfl, by decide⟩

/-- C9 amended: every request the handler issues asks the provider for
exactly 5 candidates, and the result has one entry per (point) feature of the
response — so it is capped at 5 exactly when the provider honors the
requested size, the handler itself imposing no cap. -/
theorem claim_C9_amended (q : String) (provider : GeoReq → GeoResp) :
    (∀ req ∈ (geocode q provider).1, req.size = 5) ∧
    ∀ out, (geocode q provider).2 = .ok out →
      out.length ≤ (provider ⟨q, 5⟩).features.length := by
  by_cases hq : q.length < 2
  · constructor
    · intro req hreq
      simp [geocode, hq] at hreq
    · intro out hout
      simp [geocode, hq] at hout
  · by_cases hst : (provider ⟨q, 5⟩).status = 200
    · cases hfold : geoFold (provider ⟨q, 5⟩).features with
      | error e =>
        constructor
        · intro req hreq
          simp only [geocode, if_neg hq] at hreq
          rw [if_neg (by simp [hst]), hfold] at hreq
          simp at hreq
          simp [hreq]
        · intro out hout
          simp only [geocode, if_neg hq] at hout
          rw [if_neg (by simp [hst]), hfold] at hout
          simp at hout
      | ok res =>
        constructor
        · intro req hreq
          simp only [geocode, if_neg hq] at hreq
          rw [if_neg (by simp [hst]), hfold] at hreq
          simp at hreq
          simp [hreq]
        · intro out hout
          simp only [geocode, if_neg hq] at hout
          rw [if_neg (by simp [hst]), hfold] at hout
          simp at hout
          subst hout
          exact geoFold_length _ _ hfold
    · constructor
      · intro req hreq
        simp only [geocode, if_neg hq] at hreq
        rw [if_pos hst] at hreq
        simp at hreq
        simp [hreq]
      · intro out hout
        simp only [geocode, if_neg hq] at hout
        rw [if_pos hst] at hout
        simp at hout

/-- C9 amended witness at a concrete query and provider. -/
theorem claim_C9_amended_witness :
    ((⟨"Mo", 5⟩ : GeoReq).size = 5) ∧
    ([(⟨some "L", some 2, some 1⟩ : GeoHit)]).length ≤
      ([(⟨some "Point", some [some 1, some 2], some "L", none⟩ : GeoFeature)]).length :=
  ⟨(claim_C9_amended "Mo"
      (fun _ => ⟨200, "", [⟨some "Point", some [some 1, some 2], some "L", none⟩]⟩)).1
      ⟨"Mo", 5⟩ (by decide),
   (claim_C9_amended "Mo"
      (fun _ => ⟨200, "", [⟨some "Point", some [some 1, some 2], some "L", none⟩]⟩)).2
      [⟨some "L", some 2, some 1⟩] (by rfl)⟩

end TravelPlanner
